import Mathlib

/-!
Shallow embedding of the reconciliation engine of `src/lib/scripts/concilia.js`
(the first, date-aware variant of the file, lines 1-959), together with proofs
about it.  JS numbers are idealised as rationals (`ℚ`), JS strings as Lean
`String`s, and nullable cell values as the inductive `CellVal`.
-/

namespace Concilia

/-! ### JS character/string primitives -/

/-- The whitespace class used by the JS regexes `\s` and by `String.trim`,
restricted to the characters that can actually occur in spreadsheet cells
(space, tab, newline, carriage return). -/
def isJsWs (c : Char) : Bool :=
  c == ' ' || c == '\t' || c == '\n' || c == '\r'

/-- `String.prototype.trim`: drop leading and trailing whitespace. -/
def trimList (cs : List Char) : List Char :=
  ((cs.dropWhile isJsWs).reverse.dropWhile isJsWs).reverse

/-- Numeric value of a decimal digit character. -/
def digitVal (c : Char) : Nat := c.toNat - 48

/-- Value of a list of decimal digit characters, most significant first. -/
def digitsToNat (ds : List Char) : Nat :=
  ds.foldl (fun a c => 10 * a + digitVal c) 0

/-- `parseInt(s, 10)`: skip whitespace, optional sign, then the longest prefix
of decimal digits; `NaN` (here `none`) if that prefix is empty. -/
def parseIntJs (s : String) : Option Int :=
  let core : List Char → Option Nat := fun l =>
    let ds := l.takeWhile Char.isDigit
    if ds.isEmpty then none else some (digitsToNat ds)
  match s.toList.dropWhile isJsWs with
  | '-' :: rest => (core rest).map (fun n => -(n : Int))
  | '+' :: rest => (core rest).map (fun n => (n : Int))
  | cs => (core cs).map (fun n => (n : Int))

/-- Unsigned part of `parseFloat`: digits, optionally followed by `.` and more
digits; fails when no digit is found on either side of the point.  Exponent
suffixes and `Infinity`, which never occur in the data handled here, are not
modelled. -/
def parseFloatCore (l : List Char) : Option ℚ :=
  let intDs := l.takeWhile Char.isDigit
  match l.dropWhile Char.isDigit with
  | '.' :: rest =>
    let fracDs := rest.takeWhile Char.isDigit
    if intDs.isEmpty && fracDs.isEmpty then none
    else some (mkRat ((digitsToNat intDs * 10 ^ fracDs.length + digitsToNat fracDs : Nat) : Int)
      (10 ^ fracDs.length))
  | _ => if intDs.isEmpty then none else some (mkRat ((digitsToNat intDs : Nat) : Int) 1)

/-- `parseFloat(s)`: skip whitespace, optional sign, then the longest numeric
prefix. -/
def parseFloatJs (s : String) : Option ℚ :=
  match s.toList.dropWhile isJsWs with
  | '-' :: rest => (parseFloatCore rest).map (fun q => -q)
  | '+' :: rest => parseFloatCore rest
  | cs => parseFloatCore cs

/-- `String.prototype.split(sep)` generalised to a character predicate: always
yields one part more than the number of separator occurrences, so
`"".split('.')` is `[""]` and `".".split('.')` is `["", ""]`. -/
def splitOnPred (p : Char → Bool) : List Char → List (List Char)
  | [] => [[]]
  | c :: rest =>
    let r := splitOnPred p rest
    if p c then [] :: r
    else
      match r with
      | [] => [[c]]
      | h :: t => (c :: h) :: t

/-- `String.prototype.replace(old, new)` with a plain (non-global) character
pattern: only the first occurrence is replaced. -/
def replaceFirstChar : List Char → Char → Char → List Char
  | [], _, _ => []
  | c :: rest, o, n => if c == o then n :: rest else c :: replaceFirstChar rest o n

/-! ### Calendar dates and the JS `Date` constructor -/

/-- A calendar date as held by a JS `Date` object: `month` is 0-based
(`getMonth()` style), `day` is 1-based (`getDate()`), `year` is
`getFullYear()`. -/
structure YMD where
  year : Int
  month : Int
  day : Int
deriving DecidableEq, Repr

def isLeapYear (y : Int) : Bool :=
  (y % 4 == 0 && y % 100 != 0) || y % 400 == 0

/-- Length of 0-based month `m0` of year `y`. -/
def daysInMonth (y m0 : Int) : Int :=
  if m0 = 1 then (if isLeapYear y then 29 else 28)
  else if m0 = 3 ∨ m0 = 5 ∨ m0 = 8 ∨ m0 = 10 then 30
  else 31

/-- `new Date(y, m0, d)` (ECMAScript `MakeDay` normalisation), restricted to
the domain it is actually called on in `normalizarData` — `1 ≤ d ≤ 31` and
`0 ≤ m0 ≤ 11` — where an overflowing day (at most 3 days past the month's end)
rolls into the following month, carrying the year past December. -/
def jsDateCtor (y m0 d : Int) : YMD :=
  if d ≤ daysInMonth y m0 then ⟨y, m0, d⟩
  else if m0 = 11 then ⟨y + 1, 0, d - daysInMonth y m0⟩
  else ⟨y, m0 + 1, d - daysInMonth y m0⟩

/-! ### Raw cell values -/

/-- A raw spreadsheet cell value as seen by the JS code: `null`/`undefined`,
a string, a number, a valid `Date` object, or an invalid `Date` object. -/
inductive CellVal where
  | vNull : CellVal
  | vStr : String → CellVal
  | vNum : ℚ → CellVal
  | vDate : YMD → CellVal
  | vInvalidDate : CellVal
deriving DecidableEq, Repr

/-- JS falsiness of a cell value (`!valor`): `null`/`undefined`, the empty
string and the number `0` are falsy; any `Date` object is truthy. -/
def jsFalsy : CellVal → Bool
  | .vNull => true
  | .vStr s => s == ""
  | .vNum q => q == 0
  | .vDate _ => false
  | .vInvalidDate => false

/-- Divide `p` out of `n` as often as possible (with fuel), returning the
multiplicity and the remaining cofactor. -/
def countFactorAux : Nat → Nat → Nat → Nat × Nat
  | 0, _, n => (0, n)
  | fuel + 1, p, n =>
    if 2 ≤ p && 1 ≤ n && n % p == 0 then
      let r := countFactorAux fuel p (n / p)
      (r.1 + 1, r.2)
    else (0, n)

def countFactor (p n : Nat) : Nat × Nat := countFactorAux n p n

/-- Left-pad a numeral with zeros to width `k`. -/
def padZeros (s : String) (k : Nat) : String :=
  String.mk (List.replicate (k - s.length) '0') ++ s

/-- Print the natural number `m` with a decimal point `k` digits from the
right, dropping trailing zeros of the fraction (as JS number printing does). -/
def decimalString (m k : Nat) : String :=
  let ip := m / 10 ^ k
  let fracRev := (padZeros (Nat.repr (m % 10 ^ k)) k).toList.reverse.dropWhile (· == '0')
  if fracRev.isEmpty then Nat.repr ip
  else Nat.repr ip ++ "." ++ String.mk fracRev.reverse

/-- `String(q)` for a nonnegative rational: exact decimal expansion when the
denominator is of the form `2^a * 5^b` (the only case reachable from decimal
input), otherwise a 20-place truncation standing in for the engine's
shortest-round-trip double printing. -/
def ratAbsToString (a : ℚ) : String :=
  let n := a.num.toNat
  let d := a.den
  if d == 1 then Nat.repr n
  else
    let s2 := countFactor 2 d
    let s5 := countFactor 5 s2.2
    if s5.2 == 1 then
      let k := max s2.1 s5.1
      decimalString (n * 10 ^ k / d) k
    else decimalString (n * 10 ^ 20 / d) 20

/-- `String(q)` for a rational standing in for a JS number. -/
def ratToJsString (q : ℚ) : String :=
  if q < 0 then "-" ++ ratAbsToString (-q) else ratAbsToString q

/-- `String(valor)` on a raw cell value.  A `Date` object stringifies to text
beginning with a weekday name; only the fact that it does not parse as a
number matters here, so the exact text is abbreviated. -/
def jsToString : CellVal → String
  | .vNull => "null"
  | .vStr s => s
  | .vNum q => ratToJsString q
  | .vDate _ => "DateObjectText"
  | .vInvalidDate => "Invalid Date"

/-! ### The value normalizer (`normalizarValorAbsoluto`, concilia.js 20-69) -/

/-- Lines 25-31: trim, strip `R`, `$` and whitespace, then drop one leading
minus sign. -/
def preprocessValor (s : String) : List Char :=
  let s2 := (trimList s.toList).filter (fun c => !(c == 'R' || c == '$' || isJsWs c))
  match s2 with
  | '-' :: rest => rest
  | other => other

/-- Line 52: the only-period case keeps the period as a decimal point iff the
split on `.` yields exactly two parts and the part after the period has at
most 2 characters. -/
def keepSinglePeriod (cs : List Char) : Bool :=
  let partes := splitOnPred (· == '.') cs
  partes.length == 2 && (partes.getD 1 []).length ≤ 2

/-- Lines 33-59: resolve comma/period into a canonical decimal point. -/
def resolveSeparadores (cs : List Char) : List Char :=
  let temVirgula := cs.contains ','
  let temPonto := cs.contains '.'
  if temVirgula && temPonto then replaceFirstChar (cs.filter (· != '.')) ',' '.'
  else if temVirgula && !temPonto then replaceFirstChar cs ',' '.'
  else if temPonto && !temVirgula then
    (if keepSinglePeriod cs then cs else cs.filter (· != '.'))
  else cs

/-- `Math.abs` on the rational model of a JS number. -/
def jsAbs (q : ℚ) : ℚ := if 0 ≤ q then q else -q

/-- `normalizarValorAbsoluto` (concilia.js 20-69): falsy input is `null`;
otherwise stringify, canonicalise separators, `parseFloat`, and return the
absolute value (`NaN` becomes `null`). -/
def normalizarValorAbsoluto (valor : CellVal) : Option ℚ :=
  if jsFalsy valor then none
  else
    match parseFloatJs (String.mk (resolveSeparadores (preprocessValor (jsToString valor)))) with
    | none => none
    | some numero => some (jsAbs numero)

/-! ### The date normalizer (`normalizarData`, concilia.js 75-115) -/

/-- Nonempty and all decimal digits. -/
def allDigits (cs : List Char) : Bool := !cs.isEmpty && cs.all Char.isDigit

/-- Model of the host `new Date(string)` parser (V8), to which
`normalizarData` falls back on line 109.  Documented/observed behaviour for
the relevant shapes: slash-separated numeric triples are read as US
month/day/year (2-digit years mapping to 19xx/20xx around 50), and
dash-separated triples with a 4-digit lead as ISO year-month-day; a month
outside 1-12 or a day outside the month yields an invalid date.  All other
shapes conservatively yield an invalid date here. -/
def jsEngineParseDate (s : String) : Option YMD :=
  let cs := trimList s.toList
  let slashParts := splitOnPred (· == '/') cs
  let dashParts := splitOnPred (· == '-') cs
  if slashParts.length == 3 && slashParts.all allDigits then
    match slashParts with
    | [mp, dp, yp] =>
      let m := (digitsToNat mp : Int)
      let d := (digitsToNat dp : Int)
      let yRaw := digitsToNat yp
      let y : Int := if yp.length ≤ 2 then (if yRaw < 50 then 2000 + yRaw else 1900 + yRaw) else (yRaw : Int)
      if 1 ≤ m && m ≤ 12 && 1 ≤ d && d ≤ daysInMonth y (m - 1) then some ⟨y, m - 1, d⟩
      else none
    | _ => none
  else if dashParts.length == 3 && dashParts.all allDigits && (dashParts.getD 0 []).length == 4 then
    match dashParts with
    | [yp, mp, dp] =>
      let y := (digitsToNat yp : Int)
      let m := (digitsToNat mp : Int)
      let d := (digitsToNat dp : Int)
      if 1 ≤ m && m ≤ 12 && 1 ≤ d && d ≤ daysInMonth y (m - 1) then some ⟨y, m - 1, d⟩
      else none
    | _ => none
  else none

/-- `normalizarData` (concilia.js 75-115): falsy input is `null`; `Date`
objects pass through (invalid ones become `null`); otherwise split the
trimmed string on `/` or `-`, parse day/month/year, validate
day ∈ [1,31], month ∈ [1,12], 1900 < year < 2100, construct the date and
re-verify the day/month/year round-trip; on any failure fall back to the
engine's `new Date(string)` parser. -/
def normalizarData (data : CellVal) : Option YMD :=
  if jsFalsy data then none
  else
    match data with
    | .vDate d => some d
    | .vInvalidDate => none
    | _ =>
      let dataStr := trimList (jsToString data).toList
      let partes := splitOnPred (fun c => c == '/' || c == '-') dataStr
      let structured : Option YMD :=
        if partes.length == 3 then
          match parseIntJs (String.mk (partes.getD 0 [])),
                parseIntJs (String.mk (partes.getD 1 [])),
                parseIntJs (String.mk (partes.getD 2 [])) with
          | some dia, some mesOriginal, some ano =>
            if 0 < dia && dia ≤ 31 && 1 ≤ mesOriginal && mesOriginal ≤ 12
                && 1900 < ano && ano < 2100 then
              let dataObj := jsDateCtor ano (mesOriginal - 1) dia
              if dataObj.day == dia && dataObj.month == mesOriginal - 1 && dataObj.year == ano
              then some dataObj
              else none
            else none
          | _, _, _ => none
        else none
      match structured with
      | some d => some d
      | none => jsEngineParseDate (String.mk dataStr)

/-- `compararDatas` (concilia.js 121-136) as applied to the already-normalized
`data` fields of two records: in the source it re-runs `normalizarData` on its
arguments, which is the identity on a null-or-valid stored `Date`, and then
compares day, month and year. -/
def compararDatas (data1 data2 : Option YMD) : Bool :=
  match data1, data2 with
  | some d1, some d2 => d1 == d2
  | _, _ => false

/-- The date normalizer exactly as the spec describes it (claim C5): strings
of the shape `D{1,2}/M{1,2}/Y{2,4}` (or `-`-separated) parse as
day/month/year with 2-digit years mapped to `2000+yy`, validated and
round-trip-checked.  Written from the spec's words, only to be compared with
`normalizarData` above. -/
def specNormalizarData (s : String) : Option YMD :=
  let partes := splitOnPred (fun c => c == '/' || c == '-') (trimList s.toList)
  match partes with
  | [dp, mp, yp] =>
    if allDigits dp && allDigits mp && allDigits yp
        && dp.length ≤ 2 && mp.length ≤ 2 && 2 ≤ yp.length && yp.length ≤ 4 then
      let dia := (digitsToNat dp : Int)
      let mes := (digitsToNat mp : Int)
      let ano : Int := if yp.length ≤ 2 then 2000 + (digitsToNat yp : Int) else (digitsToNat yp : Int)
      if 1 ≤ dia && dia ≤ 31 && 1 ≤ mes && mes ≤ 12 && 1900 < ano && ano < 2100 then
        let d := jsDateCtor ano (mes - 1) dia
        if d.day == dia && d.month == mes - 1 && d.year == ano then some d else none
      else none
    else none
  | _ => none

/-! ### The text normalizer (concilia.js 142-174) -/

/-- NFD normalisation followed by removal of the combining marks
U+0300-U+036F, expressed as a direct mapping on the precomposed Latin
characters that occur in the data. -/
def stripDiacritic (c : Char) : Char :=
  match c with
  | 'á' | 'à' | 'â' | 'ã' | 'ä' => 'a'
  | 'é' | 'è' | 'ê' | 'ë' => 'e'
  | 'í' | 'ì' | 'î' | 'ï' => 'i'
  | 'ó' | 'ò' | 'ô' | 'õ' | 'ö' => 'o'
  | 'ú' | 'ù' | 'û' | 'ü' => 'u'
  | 'ç' => 'c'
  | 'ñ' => 'n'
  | 'Á' | 'À' | 'Â' | 'Ã' | 'Ä' => 'A'
  | 'É' | 'È' | 'Ê' | 'Ë' => 'E'
  | 'Í' | 'Ì' | 'Î' | 'Ï' => 'I'
  | 'Ó' | 'Ò' | 'Ô' | 'Õ' | 'Ö' => 'O'
  | 'Ú' | 'Ù' | 'Û' | 'Ü' => 'U'
  | 'Ç' => 'C'
  | 'Ñ' => 'N'
  | other => other

/-- `removerAcentos` (concilia.js 142-148). -/
def removerAcentos (texto : String) : String :=
  if texto == "" then "" else String.mk (texto.toList.map stripDiacritic)

/-- `String.prototype.toLowerCase`; after accent stripping the letters in play
are ASCII, which `Char.toLower` handles. -/
def toLowerJs (s : String) : String := String.mk (s.toList.map Char.toLower)

/-- `split(/\s+/)` followed by dropping empty tokens: accumulate maximal runs
of non-whitespace characters. -/
def tokensAux : List Char → List Char → List (List Char)
  | [], acc => if acc.isEmpty then [] else [acc.reverse]
  | c :: rest, acc =>
    if isJsWs c then
      (if acc.isEmpty then tokensAux rest [] else acc.reverse :: tokensAux rest [])
    else tokensAux rest (c :: acc)

/-- Lines 160-161: accent-strip, lowercase, split on whitespace, keep
nonempty tokens. -/
def palavrasDe (desc : String) : List (List Char) :=
  tokensAux (toLowerJs (removerAcentos desc)).toList []

/-- `contarPalavrasComuns` (concilia.js 154-174): tokens of the first
description counted against membership in the second description's token set
(the JS `Set` only answers membership queries, so the plain token list serves
as the set). -/
def contarPalavrasComuns (desc1 desc2 : String) : Nat :=
  if desc1 == "" || desc2 == "" then 0
  else
    let palavras1 := palavrasDe desc1
    let palavras2 := palavrasDe desc2
    palavras1.foldl (fun comum palavra => if palavras2.contains palavra then comum + 1 else comum) 0

/-! ### Record extraction (concilia.js 179-327) -/

/-- `colunaParaIndice` (concilia.js 179-185): base-26 column letter to 0-based
index. -/
def colunaParaIndice (coluna : String) : Int :=
  coluna.toList.foldl (fun indice c => indice * 26 + ((c.toNat : Int) - 64)) 0 - 1

/-- A sheet row as the ordered list of its cell values (the JS object's keys
enumerate the sheet's columns in order, so `Object.keys(linha)[i]` addresses
the i-th cell). -/
abbrev Linha := List CellVal

/-- `obterValorColuna` (concilia.js 190-201): positional read, `null` when the
index falls outside the row (a negative index reads `undefined`, identified
with `null` here). -/
def obterValorColuna (linha : Linha) (colunaLetra : String) : CellVal :=
  let indice := colunaParaIndice colunaLetra
  if 0 ≤ indice && indice < (linha.length : Int) then linha.getD indice.toNat .vNull
  else .vNull

/-- One extracted payment record.  The display-only fields `valorOriginal`,
`dataOriginal` and `tipo` carried by the JS objects play no role in the
matching logic and are omitted. -/
structure Pagamento where
  linhaOriginal : Nat
  valor : ℚ
  descricao : String
  data : Option YMD
deriving DecidableEq, Repr

/-- The body of the row loop of `processarExtratoBancario` (concilia.js
222-259): skip empty rows; read the amount from column E, keeping the row
only when it normalizes to a positive number (`!valor || valor <= 0` skips
both `null` and `0`); description from column B (falsy becomes the empty
string); date from column A. -/
def extrairLinhaExtrato (index : Nat) (linha : Linha) : Option Pagamento :=
  if linha.isEmpty then none
  else
    match normalizarValorAbsoluto (obterValorColuna linha "E") with
    | none => none
    | some valor =>
      if valor ≤ 0 then none
      else
        let descCell := obterValorColuna linha "B"
        some { linhaOriginal := index + 1, valor := valor,
               descricao := if jsFalsy descCell then "" else jsToString descCell,
               data := normalizarData (obterValorColuna linha "A") }

/-- `processarExtratoBancario` (concilia.js 209-264), from the already-read
row list of the first worksheet. -/
def processarExtratoBancario (dados : List Linha) : List Pagamento :=
  dados.enum.filterMap fun par => extrairLinhaExtrato par.1 par.2

/-- The body of the row loop of `processarRelatorioPlanaltec` (concilia.js
285-322): same shape as the statement row with amount in column I,
description in column C and date in column J. -/
def extrairLinhaRelatorio (index : Nat) (linha : Linha) : Option Pagamento :=
  if linha.isEmpty then none
  else
    match normalizarValorAbsoluto (obterValorColuna linha "I") with
    | none => none
    | some valor =>
      if valor ≤ 0 then none
      else
        let descCell := obterValorColuna linha "C"
        some { linhaOriginal := index + 1, valor := valor,
               descricao := if jsFalsy descCell then "" else jsToString descCell,
               data := normalizarData (obterValorColuna linha "J") }

/-- `processarRelatorioPlanaltec` (concilia.js 272-327). -/
def processarRelatorioPlanaltec (dados : List Linha) : List Pagamento :=
  dados.enum.filterMap fun par => extrairLinhaRelatorio par.1 par.2

/-! ### The matcher (`cruzarPagamentos`, concilia.js 336-580) -/

/-- The deduplication key `${linhaOriginal}|${valor}|${descricao}` used for
the claimed-sets, as the underlying triple: the line number and the printed
value contain no `|`, so the template string is injective in the triple. -/
abbrev Chave := Nat × ℚ × String

def chave (p : Pagamento) : Chave := (p.linhaOriginal, p.valor, p.descricao)

/-- One entry of `todosMatchesPossiveis` (concilia.js 378-386); the
`chaveExtrato`/`chaveRelatorio` strings are recomputed from the records where
needed. -/
structure MatchPossivel where
  extrato : Pagamento
  relatorio : Pagamento
  palavrasComuns : Nat
  dataMatch : Bool
  score : Nat
deriving DecidableEq, Repr

/-- Candidate construction with its score (concilia.js 369-386):
`score = (dataMatch ? 10000 : 0) + palavrasComuns`. -/
def mkMatchPossivel (pagExtrato pagRelatorio : Pagamento) : MatchPossivel :=
  let palavrasComuns := contarPalavrasComuns pagExtrato.descricao pagRelatorio.descricao
  let dataMatch := compararDatas pagExtrato.data pagRelatorio.data
  { extrato := pagExtrato, relatorio := pagRelatorio,
    palavrasComuns := palavrasComuns, dataMatch := dataMatch,
    score := (if dataMatch then 10000 else 0) + palavrasComuns }

/-- The per-value bucket of the `indicesPorValor` map (concilia.js 346-353):
insertion into the map preserves statement order inside each bucket, so the
lookup for a value equals this filter. -/
def candidatosPorValor (pagamentosExtrato : List Pagamento) (v : ℚ) : List Pagamento :=
  pagamentosExtrato.filter (fun pag => pag.valor == v)

/-- `todosMatchesPossiveis` (concilia.js 357-388): for every report record in
order, a candidate for every statement record sharing its exact value. -/
def todosMatchesPossiveis (pagamentosExtrato pagamentosRelatorio : List Pagamento) :
    List MatchPossivel :=
  pagamentosRelatorio.flatMap fun pagRelatorio =>
    (candidatosPorValor pagamentosExtrato pagRelatorio.valor).map fun pagExtrato =>
      mkMatchPossivel pagExtrato pagRelatorio

/-- The order imposed by the sort comparator of concilia.js 394-400: higher
score first, ties by the report record's original row ascending. -/
def matchOrdem (a b : MatchPossivel) : Prop :=
  b.score < a.score ∨ (a.score = b.score ∧ a.relatorio.linhaOriginal ≤ b.relatorio.linhaOriginal)

instance matchOrdemDecidable : DecidableRel matchOrdem := fun a b => by
  unfold matchOrdem
  exact inferInstance

instance matchOrdemTotal : IsTotal MatchPossivel matchOrdem :=
  ⟨fun a b => by unfold matchOrdem; omega⟩

instance matchOrdemTrans : IsTrans MatchPossivel matchOrdem :=
  ⟨fun a b c hab hbc => by unfold matchOrdem at hab hbc ⊢; omega⟩

/-- `todosMatchesPossiveis.sort(...)` (concilia.js 394-400).  ECMAScript
`Array.prototype.sort` is stable, and the result of a stable sort with
respect to the total preorder `matchOrdem` is unique, so insertion sort
(itself stable) models it exactly. -/
def matchesOrdenados (pagamentosExtrato pagamentosRelatorio : List Pagamento) :
    List MatchPossivel :=
  List.insertionSort matchOrdem (todosMatchesPossiveis pagamentosExtrato pagamentosRelatorio)

/-- The mutable state of the greedy pass (concilia.js 403-405): the two
claimed-key sets (as lists queried only for membership) and the accepted
matches in acceptance order. -/
structure EstadoCruzamento where
  extratoUsados : List Chave
  relatorioUsados : List Chave
  matchesAplicados : List MatchPossivel
deriving Repr

/-- One step of the greedy pass (concilia.js 407-424): accept iff neither key
is claimed yet. -/
def aplicarMatch (s : EstadoCruzamento) (m : MatchPossivel) : EstadoCruzamento :=
  if chave m.extrato ∈ s.extratoUsados ∨ chave m.relatorio ∈ s.relatorioUsados then s
  else { extratoUsados := chave m.extrato :: s.extratoUsados,
         relatorioUsados := chave m.relatorio :: s.relatorioUsados,
         matchesAplicados := s.matchesAplicados ++ [m] }

/-- An entry of `resultados.encontrados` (concilia.js 414-422). -/
structure Encontrado where
  extrato : Pagamento
  relatorio : Pagamento
  palavrasComuns : Nat
  dataMatch : Bool
  metodo : String
deriving DecidableEq, Repr

def paraEncontrado (m : MatchPossivel) : Encontrado :=
  { extrato := m.extrato, relatorio := m.relatorio,
    palavrasComuns := m.palavrasComuns, dataMatch := m.dataMatch,
    metodo :=
      if m.dataMatch then (if 0 < m.palavrasComuns then "valor_data_descricao" else "valor_data")
      else (if 0 < m.palavrasComuns then "valor_descricao" else "valor_apenas") }

/-- Concilia.js 526: `pagExtrato.descricao && String(...).trim().length > 0`,
i.e. the description does not trim to the empty string. -/
def descricaoValida (p : Pagamento) : Bool :=
  !(trimList p.descricao.toList).isEmpty

/-- The matcher's output (concilia.js 339-343).  The unmatched entries carry
the record itself; the `motivo`/`detalhes`/`debug` diagnostic fields attached
on lines 458-509 and 561-570 are display-only and omitted. -/
structure Resultados where
  encontrados : List Encontrado
  naoEncontradosNoExtrato : List Pagamento
  naoEncontradosNoRelatorio : List Pagamento
deriving Repr

/-- The state after the whole greedy pass (concilia.js 407-424). -/
def estadoFinal (pagamentosExtrato pagamentosRelatorio : List Pagamento) : EstadoCruzamento :=
  (matchesOrdenados pagamentosExtrato pagamentosRelatorio).foldl aplicarMatch ⟨[], [], []⟩

/-- `cruzarPagamentos` (concilia.js 336-580): sort all candidates, accept
greedily, then report every unclaimed report record as missing from the
statement (both branches of lines 436-510 push), and every unclaimed
statement record that still has a non-blank description as missing from the
report (lines 524-571). -/
def cruzarPagamentos (pagamentosExtrato pagamentosRelatorio : List Pagamento) : Resultados :=
  { encontrados := (estadoFinal pagamentosExtrato pagamentosRelatorio).matchesAplicados.map
      paraEncontrado,
    naoEncontradosNoExtrato :=
      pagamentosRelatorio.filter (fun pag =>
        !((estadoFinal pagamentosExtrato pagamentosRelatorio).relatorioUsados.contains (chave pag))),
    naoEncontradosNoRelatorio :=
      pagamentosExtrato.filter (fun pag =>
        descricaoValida pag &&
        !((estadoFinal pagamentosExtrato pagamentosRelatorio).extratoUsados.contains (chave pag))) }

/-! ### The summary builder (`realizarConciliacao`, concilia.js 729-841) -/

/-- `Number.prototype.toFixed(2)` on a nonnegative value, idealised as
round-half-up on the rational (the engine rounds the underlying double). -/
def toFixed2 (x : ℚ) : String :=
  let n := (⌊x * 100 + 1 / 2⌋).toNat
  Nat.repr (n / 100) ++ "." ++ (if n % 100 < 10 then "0" else "") ++ Nat.repr (n % 100)

/-- `reduce((soma, pag) => soma + (pag.valor || 0), 0)`; `valor || 0` is the
value itself, `0` included. -/
def somaValores (pags : List Pagamento) : ℚ :=
  pags.foldl (fun soma pag => soma + pag.valor) 0

/-- The `resumo` object of `realizarConciliacao` (concilia.js 751-798). -/
structure Resumo where
  totalExtrato : Nat
  totalRelatorio : Nat
  totalEncontrados : Nat
  quantidadeNaoEncontradosNoExtrato : Nat
  quantidadeNaoEncontradosNoRelatorio : Nat
  valorTotalConciliado : ℚ
  valorTotalFaltanteNoExtrato : ℚ
  valorTotalFaltanteNoRelatorio : ℚ
  taxaConciliacao : String
  status : String
deriving Repr

/-- The pure core of `realizarConciliacao` (concilia.js 729-841) from the two
extracted record lists: the workbook reading, logging and spreadsheet
generation around it are I/O. -/
def realizarConciliacaoResumo (pagamentosExtrato pagamentosRelatorio : List Pagamento) : Resumo :=
  let resultados := cruzarPagamentos pagamentosExtrato pagamentosRelatorio
  { totalExtrato := pagamentosExtrato.length,
    totalRelatorio := pagamentosRelatorio.length,
    totalEncontrados := resultados.encontrados.length,
    quantidadeNaoEncontradosNoExtrato := resultados.naoEncontradosNoExtrato.length,
    quantidadeNaoEncontradosNoRelatorio := resultados.naoEncontradosNoRelatorio.length,
    valorTotalConciliado :=
      resultados.encontrados.foldl (fun soma item => soma + item.relatorio.valor) 0,
    valorTotalFaltanteNoExtrato := somaValores resultados.naoEncontradosNoExtrato,
    valorTotalFaltanteNoRelatorio := somaValores resultados.naoEncontradosNoRelatorio,
    taxaConciliacao :=
      if 0 < pagamentosRelatorio.length then
        toFixed2 (((resultados.encontrados.length : ℚ) / (pagamentosRelatorio.length : ℚ)) * 100)
          ++ "%"
      else "0%",
    status :=
      if resultados.naoEncontradosNoExtrato.length == 0
          && resultados.naoEncontradosNoRelatorio.length == 0
      then "totalmente_conciliado"
      else "divergencias_encontradas" }

/-! ### Shorthands and concrete test data used by the theorems -/

def chaveE (m : MatchPossivel) : Chave := chave m.extrato

def chaveR (m : MatchPossivel) : Chave := chave m.relatorio

/-- A description made of `n` copies of the word `a`. -/
def muitasPalavras : Nat → List Char
  | 0 => []
  | n + 1 => 'a' :: ' ' :: muitasPalavras n

/-- Report record R of the spec's tie-break scenario:
amount 100.00, date 2024-01-05, description `Pagamento A`. -/
def registroR : Pagamento := ⟨1, 100, "Pagamento A", some ⟨2024, 0, 5⟩⟩

/-- Statement candidate S1: amount 100.00, no date, description
`Pagamento A B C`. -/
def registroS1 : Pagamento := ⟨1, 100, "Pagamento A B C", none⟩

/-- Statement candidate S2: amount 100.00, date 2024-01-05, description
`X`. -/
def registroS2 : Pagamento := ⟨2, 100, "X", some ⟨2024, 0, 5⟩⟩

/-- A statement record sharing 10001 words with `registroR`'s description but
carrying no date. -/
def registroMuitas : Pagamento := ⟨3, 100, String.mk (muitasPalavras 10001), none⟩

/-! ### Helper lemmas -/

theorem contains_true_iff {α : Type} [BEq α] [LawfulBEq α] (l : List α) (a : α) :
    l.contains a = true ↔ a ∈ l := by
  rw [show l.contains a = List.elem a l from rfl]
  exact List.elem_iff

theorem foldl_count_eq_countP {α : Type} (p : α → Bool) (l : List α) (i : Nat) :
    l.foldl (fun c x => if p x then c + 1 else c) i = i + l.countP p := by
  induction l generalizing i with
  | nil => simp
  | cons a t ih =>
    by_cases h : p a
    · simp [h, ih, List.countP_cons]
      omega
    · simp [h, ih, List.countP_cons]

theorem palavrasDe_vazia : palavrasDe "" = [] := rfl

theorem contarPalavrasComuns_eq_countP (d1 d2 : String) :
    contarPalavrasComuns d1 d2 =
      (palavrasDe d1).countP (fun w => (palavrasDe d2).contains w) := by
  by_cases h1 : d1 = ""
  · subst h1
    simp [contarPalavrasComuns, palavrasDe_vazia]
  · by_cases h2 : d2 = ""
    · subst h2
      simp [contarPalavrasComuns, h1, palavrasDe_vazia, List.countP_eq_length_filter]
    · simp only [contarPalavrasComuns, beq_iff_eq, h1, h2, Bool.or_self, if_false,
        Bool.false_or, Bool.or_false]
      rw [if_neg (by simp [h1, h2])]
      exact (foldl_count_eq_countP _ _ 0).trans (Nat.zero_add _)

theorem stringMk_cons_ne_empty (c : Char) (cs : List Char) : String.mk (c :: cs) ≠ "" := by
  intro h
  cases congrArg String.data h

theorem palavrasDe_mk (l : List Char) :
    palavrasDe (String.mk l) =
      tokensAux (l.map (fun c => Char.toLower (stripDiacritic c))) [] := by
  cases l with
  | nil => rfl
  | cons c cs =>
    unfold palavrasDe removerAcentos toLowerJs
    rw [if_neg]
    · simp [List.map_map]
      rfl
    · simp [stringMk_cons_ne_empty]

theorem muitasPalavras_map (f : Char → Char) (hfa : f 'a' = 'a') (hfs : f ' ' = ' ') :
    ∀ n, (muitasPalavras n).map f = muitasPalavras n := by
  intro n
  induction n with
  | zero => rfl
  | succ k ih => simp [muitasPalavras, hfa, hfs, ih]

theorem tokensAux_muitasPalavras :
    ∀ n, tokensAux (muitasPalavras n) [] = List.replicate n ['a'] := by
  intro n
  induction n with
  | zero => rfl
  | succ k ih =>
    have h1 : isJsWs 'a' = false := rfl
    have h2 : isJsWs ' ' = true := rfl
    simp [muitasPalavras, tokensAux, h1, h2, ih, List.replicate_succ]

theorem palavrasDe_muitas (n : Nat) :
    palavrasDe (String.mk (muitasPalavras n)) = List.replicate n ['a'] := by
  rw [palavrasDe_mk,
    muitasPalavras_map (fun c => Char.toLower (stripDiacritic c)) (by decide) (by decide),
    tokensAux_muitasPalavras]

theorem contar_muitas (n : Nat) :
    contarPalavrasComuns (String.mk (muitasPalavras (n + 1))) "Pagamento A" = n + 1 := by
  rw [contarPalavrasComuns_eq_countP, palavrasDe_muitas, List.countP_replicate]
  have h : (['a'] : List Char) ∈ palavrasDe "Pagamento A" := by decide
  simp [h]

/-! ### Claim theorems -/

/-- C7: the word-overlap count lowercases and diacritic-strips both
descriptions, splits each on whitespace into nonempty tokens, and returns the
number of tokens of the first description occurring among the second's tokens,
duplicates in the first each counting; in particular
`commonWords("Pagamento João Silva", "joão silva pagamento") = 3` and
`commonWords(x, "") = 0` for every `x`. -/
theorem claim7_palavras :
    contarPalavrasComuns "Pagamento João Silva" "joão silva pagamento" = 3 ∧
    (∀ x : String, contarPalavrasComuns x "" = 0) ∧
    (∀ d1 d2 : String, contarPalavrasComuns d1 d2 =
      ((palavrasDe d1).filter (fun w => (palavrasDe d2).contains w)).length) := by
  refine ⟨by decide, ?_, ?_⟩
  · intro x
    simp [contarPalavrasComuns]
  · intro d1 d2
    rw [contarPalavrasComuns_eq_countP, List.countP_eq_length_filter]

/-- C4: the value normalizer maps `"-123,00"` and `"123.00"` to 123 and
`"1.234,56"` to 1234.56, rejects `""` and `"abc"`, keeps a sole period as the
decimal point iff at most 2 characters follow it (otherwise strips all
periods as thousands separators), and always returns `null` or a nonnegative
number. -/
theorem claim4_valor :
    normalizarValorAbsoluto (.vStr "-123,00") = some 123 ∧
    normalizarValorAbsoluto (.vStr "123.00") = some 123 ∧
    normalizarValorAbsoluto (.vStr "1.234,56") = some (1234.56 : ℚ) ∧
    normalizarValorAbsoluto (.vStr "") = none ∧
    normalizarValorAbsoluto (.vStr "abc") = none ∧
    (∀ s : String,
      (preprocessValor s).contains '.' = true →
      (preprocessValor s).contains ',' = false →
      normalizarValorAbsoluto (.vStr s) =
        (parseFloatJs (String.mk (if keepSinglePeriod (preprocessValor s) then
          preprocessValor s
        else (preprocessValor s).filter (· != '.')))).map jsAbs) ∧
    (∀ v : CellVal, normalizarValorAbsoluto v = none ∨
      ∃ q, normalizarValorAbsoluto v = some q ∧ 0 ≤ q) := by
  have h56 : (1234.56 : ℚ) = mkRat 123456 100 := by norm_num [Rat.mkRat_eq_div]
  refine ⟨by decide, by decide, by rw [h56]; decide, by decide, by decide, ?_, ?_⟩
  · intro s hp hv
    have hs : s ≠ "" := by
      intro h
      subst h
      exact absurd hp (by decide)
    have hp' : '.' ∈ preprocessValor s := (contains_true_iff _ _).mp hp
    have hv' : ',' ∉ preprocessValor s := fun hmem => by
      rw [(contains_true_iff _ _).mpr hmem] at hv
      cases hv
    have hfal : jsFalsy (.vStr s) = false := by simp [jsFalsy, hs]
    have hres : resolveSeparadores (preprocessValor s) =
        (if keepSinglePeriod (preprocessValor s) then preprocessValor s
         else (preprocessValor s).filter (· != '.')) := by
      simp [resolveSeparadores, hp', hv']
    unfold normalizarValorAbsoluto
    rw [hfal]
    simp only [Bool.false_eq_true, if_false]
    rw [show jsToString (.vStr s) = s from rfl, hres]
    cases hpf : parseFloatJs (String.mk (if keepSinglePeriod (preprocessValor s) then
        preprocessValor s else (preprocessValor s).filter (· != '.'))) with
    | none => simp [hpf]
    | some q => simp [hpf]
  · intro v
    by_cases h : jsFalsy v
    · left
      simp [normalizarValorAbsoluto, h]
    · rcases hpf : parseFloatJs (String.mk (resolveSeparadores (preprocessValor (jsToString v))))
        with _ | q
      · left
        simp [normalizarValorAbsoluto, h, hpf]
      · right
        refine ⟨jsAbs q, by simp [normalizarValorAbsoluto, h, hpf], ?_⟩
        unfold jsAbs
        split_ifs with hq
        · exact hq
        · linarith

/-- C4 witness: the period rule applied at the concrete inputs `"12.345"`
(three characters after the sole period: thousands separator). -/
theorem claim4_valor_wit :
    ((preprocessValor "12.345").contains '.' = true ∧
     (preprocessValor "12.345").contains ',' = false) ∧
    normalizarValorAbsoluto (.vStr "12.345") =
      (parseFloatJs (String.mk (if keepSinglePeriod (preprocessValor "12.345") then
        preprocessValor "12.345"
      else (preprocessValor "12.345").filter (· != '.')))).map jsAbs :=
  ⟨⟨by decide, by decide⟩, (claim4_valor.2.2.2.2.2.1) "12.345" (by decide) (by decide)⟩

/-- C5 counterexample: on `"13/01/24"` the claim's described normalizer
(2-digit year mapped to `2000 + 24`) accepts 13 January 2024, but the code's
normalizer returns `null` — no 2-digit-year mapping exists in the code. -/
theorem claim5_data_cex :
    specNormalizarData "13/01/24" = some ⟨2024, 0, 13⟩ ∧
    normalizarData (.vStr "13/01/24") = none :=
  ⟨by decide, by decide⟩

/-- C5 amended: the date normalizer parses `D/M/Y` strings as day/month/year
with NO 2-digit-year expansion (such years fail the `1900 < year` validation
and fall to the engine parser), validates day ∈ [1,31], month ∈ [1,12],
1900 < year < 2100, and the construct-and-re-verify round-trip holds exactly
when the day fits the month; `"29/02/2024"` is valid while `"29/02/2023"` and
`"32/01/2024"` are `null`. -/
theorem claim5_data :
    normalizarData (.vStr "29/02/2024") = some ⟨2024, 1, 29⟩ ∧
    normalizarData (.vStr "29/02/2023") = none ∧
    normalizarData (.vStr "32/01/2024") = none ∧
    (∀ dia mes ano : Int, 1 ≤ dia → dia ≤ 31 → 1 ≤ mes → mes ≤ 12 →
      1900 < ano → ano < 2100 →
      (((jsDateCtor ano (mes - 1) dia).day = dia ∧
        (jsDateCtor ano (mes - 1) dia).month = mes - 1 ∧
        (jsDateCtor ano (mes - 1) dia).year = ano) ↔
        dia ≤ daysInMonth ano (mes - 1))) := by
  refine ⟨by decide, by decide, by decide, ?_⟩
  intro dia mes ano h1 h2 h3 h4 h5 h6
  have hdim : 28 ≤ daysInMonth ano (mes - 1) := by
    unfold daysInMonth
    split_ifs <;> omega
  unfold jsDateCtor
  split_ifs with hle hm
  · simp [hle]
  · dsimp only
    constructor
    · rintro ⟨hd, hm0, hy⟩
      omega
    · intro h
      exact absurd h hle
  · dsimp only
    constructor
    · rintro ⟨hd, hm0, hy⟩
      omega
    · intro h
      exact absurd h hle

/-- C5 witness: 29 February 2024 round-trips exactly because 29 fits the leap
February. -/
theorem claim5_data_wit :
    ((1 : Int) ≤ 29 ∧ (29 : Int) ≤ 31 ∧ (1 : Int) ≤ 2 ∧ (2 : Int) ≤ 12 ∧
     (1900 : Int) < 2024 ∧ (2024 : Int) < 2100) ∧
    (((jsDateCtor 2024 (2 - 1) 29).day = 29 ∧
      (jsDateCtor 2024 (2 - 1) 29).month = 2 - 1 ∧
      (jsDateCtor 2024 (2 - 1) 29).year = 2024) ↔
      (29 : Int) ≤ daysInMonth 2024 (2 - 1)) :=
  ⟨by decide,
   claim5_data.2.2.2 29 2 2024 (by decide) (by decide) (by decide) (by decide)
     (by decide) (by decide)⟩

theorem mkMatchPossivel_score (pe pr : Pagamento) :
    (mkMatchPossivel pe pr).score =
      (if compararDatas pe.data pr.data then 10000 else 0) +
        contarPalavrasComuns pe.descricao pr.descricao := rfl

/-- C2 counterexample: the date-matching candidate S2 (score 10000) is
outranked by a date-less candidate sharing 10001 words with R's description
(score 10001), so a date match does NOT dominate arbitrary word overlap. -/
theorem claim2_score_cex :
    (mkMatchPossivel registroS2 registroR).dataMatch = true ∧
    (mkMatchPossivel registroMuitas registroR).dataMatch = false ∧
    (mkMatchPossivel registroS2 registroR).score <
      (mkMatchPossivel registroMuitas registroR).score := by
  refine ⟨by decide, by decide, ?_⟩
  have hm : contarPalavrasComuns registroMuitas.descricao registroR.descricao = 10001 := by
    show contarPalavrasComuns (String.mk (muitasPalavras 10001)) "Pagamento A" = 10001
    exact contar_muitas 10000
  have hdm : compararDatas registroMuitas.data registroR.data = false := by decide
  have hd2 : compararDatas registroS2.data registroR.data = true := by decide
  have hx : contarPalavrasComuns registroS2.descricao registroR.descricao = 0 := by decide
  rw [mkMatchPossivel_score, mkMatchPossivel_score, hm, hdm, hd2, hx]
  norm_num

/-- C2 amended: the score of every candidate equals
`(dateMatches ? 10000 : 0) + commonWordCount`, a date-matching candidate
outranks every non-date-matching candidate whose common-word count is below
10000 (not an arbitrary count, as the counterexample shows), and in the
concrete scenario the matcher pairs R with S2. -/
theorem claim2_score :
    (∀ pe pr : Pagamento, (mkMatchPossivel pe pr).score =
      (if compararDatas pe.data pr.data then 10000 else 0) +
        contarPalavrasComuns pe.descricao pr.descricao) ∧
    (∀ pe1 pe2 pr : Pagamento, compararDatas pe1.data pr.data = true →
      compararDatas pe2.data pr.data = false →
      contarPalavrasComuns pe2.descricao pr.descricao < 10000 →
      (mkMatchPossivel pe2 pr).score < (mkMatchPossivel pe1 pr).score) ∧
    ((cruzarPagamentos [registroS1, registroS2] [registroR]).encontrados.map
      (fun m => (m.extrato.linhaOriginal, m.relatorio.linhaOriginal)) = [(2, 1)]) := by
  refine ⟨fun pe pr => mkMatchPossivel_score pe pr, ?_, by decide⟩
  intro pe1 pe2 pr h1 h2 hlt
  rw [mkMatchPossivel_score, mkMatchPossivel_score, h1, h2]
  simp only [Bool.false_eq_true, if_false, if_true]
  omega

/-- C2 witness: in the concrete scenario, S2's date match (score 10000) beats
S1's two shared words (score 2). -/
theorem claim2_score_wit :
    (compararDatas registroS2.data registroR.data = true ∧
     compararDatas registroS1.data registroR.data = false ∧
     contarPalavrasComuns registroS1.descricao registroR.descricao < 10000) ∧
    (mkMatchPossivel registroS1 registroR).score <
      (mkMatchPossivel registroS2 registroR).score :=
  ⟨⟨by decide, by decide, by decide⟩,
   claim2_score.2.1 registroS2 registroS1 registroR (by decide) (by decide) (by decide)⟩

theorem extrairLinhaExtrato_some {i : Nat} {linha : Linha} {p : Pagamento}
    (h : extrairLinhaExtrato i linha = some p) :
    p.linhaOriginal = i + 1 ∧
    normalizarValorAbsoluto (obterValorColuna linha "E") = some p.valor ∧ 0 < p.valor := by
  unfold extrairLinhaExtrato at h
  split at h
  · cases h
  · rcases hval : normalizarValorAbsoluto (obterValorColuna linha "E") with _ | v
    · rw [hval] at h
      cases h
    · rw [hval] at h
      dsimp only at h
      by_cases hv0 : v ≤ 0
      · rw [if_pos hv0] at h
        cases h
      · rw [if_neg hv0] at h
        cases h
        exact ⟨rfl, rfl, lt_of_not_le hv0⟩

theorem extrairLinhaExtrato_emits (i : Nat) (linha : Linha) (v : ℚ)
    (hne : linha.isEmpty = false)
    (hval : normalizarValorAbsoluto (obterValorColuna linha "E") = some v) (hpos : 0 < v) :
    extrairLinhaExtrato i linha =
      some { linhaOriginal := i + 1, valor := v,
             descricao := if jsFalsy (obterValorColuna linha "B") then ""
               else jsToString (obterValorColuna linha "B"),
             data := normalizarData (obterValorColuna linha "A") } := by
  unfold extrairLinhaExtrato
  rw [hne]
  simp only [Bool.false_eq_true, if_false]
  rw [hval]
  dsimp only
  rw [if_neg (not_le.mpr hpos)]

theorem mem_processarExtrato {dados : List Linha} {p : Pagamento} :
    p ∈ processarExtratoBancario dados ↔
      ∃ i linha, dados[i]? = some linha ∧ extrairLinhaExtrato i linha = some p := by
  unfold processarExtratoBancario
  rw [List.mem_filterMap]
  constructor
  · rintro ⟨⟨i, linha⟩, hmem, hf⟩
    exact ⟨i, linha, List.mk_mem_enum_iff_getElem?.mp hmem, hf⟩
  · rintro ⟨i, linha, hget, hf⟩
    exact ⟨(i, linha), List.mk_mem_enum_iff_getElem?.mpr hget, hf⟩

/-- C9: the value normalizer maps every falsy raw cell — the number 0
included — to `null`, so a genuine zero amount is indistinguishable from a
missing one; combined with the extractor's `!valor || valor <= 0` filter, a
row whose column-E cell is exactly 0 (falsy number or a string normalizing to
0) never yields a record. -/
theorem claim9_zero :
    (∀ v : CellVal, jsFalsy v = true → normalizarValorAbsoluto v = none) ∧
    normalizarValorAbsoluto (.vNum 0) = none ∧
    (∀ (dados : List Linha) (i : Nat) (linha : Linha),
      dados[i]? = some linha →
      (jsFalsy (obterValorColuna linha "E") = true ∨
        normalizarValorAbsoluto (obterValorColuna linha "E") = some 0) →
      ∀ p ∈ processarExtratoBancario dados, p.linhaOriginal ≠ i + 1) := by
  refine ⟨?_, by decide, ?_⟩
  · intro v hv
    simp [normalizarValorAbsoluto, hv]
  · intro dados i linha hget hzero p hp hlin
    rcases mem_processarExtrato.mp hp with ⟨j, lj, hgj, hfj⟩
    obtain ⟨hpl, hval, hpos⟩ := extrairLinhaExtrato_some hfj
    have hij : j = i := by omega
    subst hij
    rw [hget] at hgj
    cases hgj
    rcases hzero with hfal | h0
    · rw [show normalizarValorAbsoluto (obterValorColuna linha "E") = none by
        simp [normalizarValorAbsoluto, hfal]] at hval
      cases hval
    · rw [h0] at hval
      rw [show p.valor = 0 from (Option.some.injEq _ _).mp hval.symm] at hpos
      exact absurd hpos (by norm_num)

/-- C9 witness: a row carrying the number 0 in column E is excluded. -/
theorem claim9_zero_wit :
    (jsFalsy (CellVal.vNum 0) = true ∧
     ([([.vStr "01/01/2024", .vStr "x", .vNull, .vNull, .vNum 0] : Linha)] :
       List Linha)[0]? = some [.vStr "01/01/2024", .vStr "x", .vNull, .vNull, .vNum 0]) ∧
    normalizarValorAbsoluto (.vNum 0) = none ∧
    (∀ p ∈ processarExtratoBancario
        [[.vStr "01/01/2024", .vStr "x", .vNull, .vNull, .vNum 0]],
      p.linhaOriginal ≠ 0 + 1) :=
  ⟨⟨by decide, by decide⟩,
   claim9_zero.1 (.vNum 0) (by decide),
   claim9_zero.2.2 [[.vStr "01/01/2024", .vStr "x", .vNull, .vNull, .vNum 0]] 0
     [.vStr "01/01/2024", .vStr "x", .vNull, .vNull, .vNum 0] (by decide)
     (Or.inl (by decide))⟩

/-- C6 counterexample: a row whose column-E amount is the POSITIVE `"123,00"`
(a credit — no negative sign, no debit column consulted) is extracted as a
payment record, so credits are not excluded. -/
theorem claim6_debito_cex :
    processarExtratoBancario
        [[.vStr "01/01/2024", .vStr "Deposito", .vNull, .vNull, .vStr "123,00"]] =
      [{ linhaOriginal := 1, valor := 123, descricao := "Deposito",
         data := some ⟨2024, 0, 1⟩ }] := by decide

/-- C6 amended: statement extraction filters only on the normalized ABSOLUTE
amount: every nonempty row whose column-E cell normalizes to a positive
number is emitted — sign ignored, credits and debits alike — and every
emitted record has a positive amount. -/
theorem claim6_debito (dados : List Linha) (i : Nat) (linha : Linha) (v : ℚ)
    (hget : dados[i]? = some linha) (hne : linha.isEmpty = false)
    (hval : normalizarValorAbsoluto (obterValorColuna linha "E") = some v)
    (hpos : 0 < v) :
    (∃ p ∈ processarExtratoBancario dados, p.linhaOriginal = i + 1 ∧ p.valor = v) ∧
    (∀ p ∈ processarExtratoBancario dados, 0 < p.valor) := by
  constructor
  · exact ⟨_, mem_processarExtrato.mpr
      ⟨i, linha, hget, extrairLinhaExtrato_emits i linha v hne hval hpos⟩, rfl, rfl⟩
  · intro p hp
    rcases mem_processarExtrato.mp hp with ⟨j, lj, hgj, hfj⟩
    exact (extrairLinhaExtrato_some hfj).2.2

/-- C6 witness: the positive (credit) row of the counterexample satisfies the
amended emission condition. -/
theorem claim6_debito_wit :
    (([([.vStr "01/01/2024", .vStr "Deposito", .vNull, .vNull, .vStr "123,00"] : Linha)] :
        List Linha)[0]? =
          some [.vStr "01/01/2024", .vStr "Deposito", .vNull, .vNull, .vStr "123,00"] ∧
     ([.vStr "01/01/2024", .vStr "Deposito", .vNull, .vNull,
        .vStr "123,00"] : Linha).isEmpty = false ∧
     normalizarValorAbsoluto (obterValorColuna
       [.vStr "01/01/2024", .vStr "Deposito", .vNull, .vNull, .vStr "123,00"] "E") =
         some 123 ∧
     (0 : ℚ) < 123) ∧
    ((∃ p ∈ processarExtratoBancario
        [[.vStr "01/01/2024", .vStr "Deposito", .vNull, .vNull, .vStr "123,00"]],
        p.linhaOriginal = 0 + 1 ∧ p.valor = 123) ∧
     (∀ p ∈ processarExtratoBancario
        [[.vStr "01/01/2024", .vStr "Deposito", .vNull, .vNull, .vStr "123,00"]],
        0 < p.valor)) :=
  ⟨⟨by decide, by decide, by decide, by norm_num⟩,
   claim6_debito [[.vStr "01/01/2024", .vStr "Deposito", .vNull, .vNull, .vStr "123,00"]] 0
     [.vStr "01/01/2024", .vStr "Deposito", .vNull, .vNull, .vStr "123,00"] 123
     (by decide) (by decide) (by decide) (by norm_num)⟩

theorem foldl_aplicar_mem (ms : List MatchPossivel) (s : EstadoCruzamento) :
    ∀ m ∈ (ms.foldl aplicarMatch s).matchesAplicados, m ∈ s.matchesAplicados ∨ m ∈ ms := by
  induction ms generalizing s with
  | nil => exact fun m hm => Or.inl hm
  | cons c t ih =>
    intro m hm
    rcases ih (aplicarMatch s c) m hm with h | h
    · unfold aplicarMatch at h
      split_ifs at h
      · exact Or.inl h
      · rcases List.mem_append.mp h with h1 | h1
        · exact Or.inl h1
        · exact Or.inr (by simp [List.mem_singleton.mp h1])
    · exact Or.inr (List.mem_cons_of_mem _ h)

theorem mem_todosMatches {e r : List Pagamento} {m : MatchPossivel}
    (hm : m ∈ todosMatchesPossiveis e r) :
    m.extrato ∈ e ∧ m.relatorio ∈ r ∧ m.extrato.valor = m.relatorio.valor := by
  unfold todosMatchesPossiveis candidatosPorValor at hm
  rw [List.mem_flatMap] at hm
  rcases hm with ⟨pr, hpr, hmm⟩
  rw [List.mem_map] at hmm
  rcases hmm with ⟨pe, hpe, rfl⟩
  rw [List.mem_filter] at hpe
  exact ⟨hpe.1, hpr, beq_iff_eq.mp hpe.2⟩

theorem mem_estadoFinal_aplicados {e r : List Pagamento} {m : MatchPossivel}
    (hm : m ∈ (estadoFinal e r).matchesAplicados) : m ∈ todosMatchesPossiveis e r := by
  unfold estadoFinal at hm
  rcases foldl_aplicar_mem _ _ m hm with h | h
  · exact absurd h (List.not_mem_nil m)
  · exact (List.perm_insertionSort matchOrdem _).subset h

/-- C10: every accepted match pairs records with exactly equal normalized
amounts — candidates are drawn only from the exact-value index, so no
within-tolerance match exists. -/
theorem claim10_valor_exato (e r : List Pagamento) (m : Encontrado)
    (hm : m ∈ (cruzarPagamentos e r).encontrados) :
    m.extrato.valor = m.relatorio.valor := by
  unfold cruzarPagamentos at hm
  rw [List.mem_map] at hm
  rcases hm with ⟨c, hc, rfl⟩
  exact (mem_todosMatches (mem_estadoFinal_aplicados hc)).2.2

/-- C10 witness: the accepted match of the concrete scenario has equal
amounts on both sides. -/
theorem claim10_valor_exato_wit :
    (paraEncontrado (mkMatchPossivel registroS2 registroR) ∈
      (cruzarPagamentos [registroS1, registroS2] [registroR]).encontrados) ∧
    (paraEncontrado (mkMatchPossivel registroS2 registroR)).extrato.valor =
      (paraEncontrado (mkMatchPossivel registroS2 registroR)).relatorio.valor :=
  ⟨by decide, claim10_valor_exato [registroS1, registroS2] [registroR] _ (by decide)⟩

/-- C8: the reported reconciliation rate is `matches / |report| * 100`
(rendered with two decimals), `"0%"` when the report list is empty — no
division by zero — and the status is `totalmente_conciliado` iff both
unmatched lists are empty. -/
theorem claim8_resumo (e r : List Pagamento) :
    (r = [] → (realizarConciliacaoResumo e r).taxaConciliacao = "0%") ∧
    (r ≠ [] → (realizarConciliacaoResumo e r).taxaConciliacao =
      toFixed2 (((cruzarPagamentos e r).encontrados.length : ℚ) / (r.length : ℚ) * 100)
        ++ "%") ∧
    ((realizarConciliacaoResumo e r).status = "totalmente_conciliado" ↔
      (cruzarPagamentos e r).naoEncontradosNoExtrato = [] ∧
      (cruzarPagamentos e r).naoEncontradosNoRelatorio = []) := by
  refine ⟨?_, ?_, ?_⟩
  · intro hr
    subst hr
    simp [realizarConciliacaoResumo]
  · intro hr
    have hpos : 0 < r.length := List.length_pos.mpr hr
    simp [realizarConciliacaoResumo, hpos]
  · show (if (cruzarPagamentos e r).naoEncontradosNoExtrato.length == 0 &&
          (cruzarPagamentos e r).naoEncontradosNoRelatorio.length == 0
        then "totalmente_conciliado" else "divergencias_encontradas") = "totalmente_conciliado"
        ↔ _
    split_ifs with h
    · simp only [Bool.and_eq_true, beq_iff_eq, List.length_eq_zero] at h
      simp [h]
    · simp only [Bool.and_eq_true, beq_iff_eq, List.length_eq_zero] at h
      constructor
      · intro hcontra
        exact absurd hcontra (by decide)
      · intro hboth
        exact absurd hboth h

/-- C8 witness: with a nonempty report list the rate expression is the
two-decimal percentage. -/
theorem claim8_resumo_wit :
    (([registroR] : List Pagamento) ≠ []) ∧
    (realizarConciliacaoResumo [] [registroR]).taxaConciliacao =
      toFixed2 (((cruzarPagamentos [] [registroR]).encontrados.length : ℚ) /
        (([registroR] : List Pagamento).length : ℚ) * 100) ++ "%" :=
  ⟨by decide, (claim8_resumo [] [registroR]).2.1 (by decide)⟩

/-- C3: the matcher is deterministic — equal inputs give equal outputs — its
candidate list is sorted by score descending with ties broken by the report
row ascending, and that list is a permutation of all candidate pairs (no
dependence on hash-iteration order or wall-clock time exists in the model:
the sort is an explicit stable sort and the claimed-sets are queried by
value). -/
theorem claim3_determinismo (e r e' r' : List Pagamento) (he : e = e') (hr : r = r') :
    cruzarPagamentos e r = cruzarPagamentos e' r' ∧
    List.Sorted matchOrdem (matchesOrdenados e r) ∧
    List.Perm (matchesOrdenados e r) (todosMatchesPossiveis e r) := by
  subst he
  subst hr
  exact ⟨rfl, List.sorted_insertionSort matchOrdem _, List.perm_insertionSort matchOrdem _⟩

/-- C3 witness at the concrete scenario inputs. -/
theorem claim3_determinismo_wit :
    (([registroS1, registroS2] : List Pagamento) = [registroS1, registroS2]) ∧
    (([registroR] : List Pagamento) = [registroR]) ∧
    (cruzarPagamentos [registroS1, registroS2] [registroR] =
      cruzarPagamentos [registroS1, registroS2] [registroR] ∧
     List.Sorted matchOrdem (matchesOrdenados [registroS1, registroS2] [registroR]) ∧
     List.Perm (matchesOrdenados [registroS1, registroS2] [registroR])
       (todosMatchesPossiveis [registroS1, registroS2] [registroR])) :=
  ⟨rfl, rfl, claim3_determinismo [registroS1, registroS2] [registroR] _ _ rfl rfl⟩

theorem aplicarMatch_inv (s : EstadoCruzamento) (m : MatchPossivel)
    (hE : s.extratoUsados = (s.matchesAplicados.map chaveE).reverse)
    (hR : s.relatorioUsados = (s.matchesAplicados.map chaveR).reverse)
    (hnE : (s.matchesAplicados.map chaveE).Nodup)
    (hnR : (s.matchesAplicados.map chaveR).Nodup) :
    (aplicarMatch s m).extratoUsados =
      ((aplicarMatch s m).matchesAplicados.map chaveE).reverse ∧
    (aplicarMatch s m).relatorioUsados =
      ((aplicarMatch s m).matchesAplicados.map chaveR).reverse ∧
    ((aplicarMatch s m).matchesAplicados.map chaveE).Nodup ∧
    ((aplicarMatch s m).matchesAplicados.map chaveR).Nodup := by
  unfold aplicarMatch
  split_ifs with h
  · exact ⟨hE, hR, hnE, hnR⟩
  · push_neg at h
    obtain ⟨hmE, hmR⟩ := h
    rw [hE, List.mem_reverse] at hmE
    rw [hR, List.mem_reverse] at hmR
    refine ⟨?_, ?_, ?_, ?_⟩
    · dsimp only
      rw [List.map_append, List.reverse_append, hE]
      rfl
    · dsimp only
      rw [List.map_append, List.reverse_append, hR]
      rfl
    · dsimp only
      rw [List.map_append]
      simp [List.nodup_append, hnE]
      intro x hx hxe
      apply hmE
      show chaveE m ∈ List.map chaveE s.matchesAplicados
      exact hxe ▸ List.mem_map_of_mem chaveE hx
    · dsimp only
      rw [List.map_append]
      simp [List.nodup_append, hnR]
      intro x hx hxe
      apply hmR
      show chaveR m ∈ List.map chaveR s.matchesAplicados
      exact hxe ▸ List.mem_map_of_mem chaveR hx

theorem foldl_aplicar_inv (ms : List MatchPossivel) (s : EstadoCruzamento)
    (hE : s.extratoUsados = (s.matchesAplicados.map chaveE).reverse)
    (hR : s.relatorioUsados = (s.matchesAplicados.map chaveR).reverse)
    (hnE : (s.matchesAplicados.map chaveE).Nodup)
    (hnR : (s.matchesAplicados.map chaveR).Nodup) :
    (ms.foldl aplicarMatch s).extratoUsados =
      ((ms.foldl aplicarMatch s).matchesAplicados.map chaveE).reverse ∧
    (ms.foldl aplicarMatch s).relatorioUsados =
      ((ms.foldl aplicarMatch s).matchesAplicados.map chaveR).reverse ∧
    ((ms.foldl aplicarMatch s).matchesAplicados.map chaveE).Nodup ∧
    ((ms.foldl aplicarMatch s).matchesAplicados.map chaveR).Nodup := by
  induction ms generalizing s with
  | nil => exact ⟨hE, hR, hnE, hnR⟩
  | cons c t ih =>
    obtain ⟨h1, h2, h3, h4⟩ := aplicarMatch_inv s c hE hR hnE hnR
    exact ih (aplicarMatch s c) h1 h2 h3 h4

theorem estadoFinal_inv (e r : List Pagamento) :
    (estadoFinal e r).extratoUsados =
      ((estadoFinal e r).matchesAplicados.map chaveE).reverse ∧
    (estadoFinal e r).relatorioUsados =
      ((estadoFinal e r).matchesAplicados.map chaveR).reverse ∧
    ((estadoFinal e r).matchesAplicados.map chaveE).Nodup ∧
    ((estadoFinal e r).matchesAplicados.map chaveR).Nodup := by
  unfold estadoFinal
  exact foldl_aplicar_inv _ ⟨[], [], []⟩ rfl rfl List.nodup_nil List.nodup_nil

theorem length_filter_not_contains (ks : List Chave) (l : List Pagamento)
    (hks : ks.Nodup) (hl : (l.map chave).Nodup)
    (hsub : ∀ k ∈ ks, k ∈ l.map chave) :
    (l.filter (fun p => !(ks.contains (chave p)))).length + ks.length = l.length := by
  have hperm : List.Perm ((l.map chave).filter (fun k => ks.contains k)) ks := by
    rw [List.perm_ext_iff_of_nodup (hl.filter _) hks]
    intro k
    rw [List.mem_filter]
    constructor
    · rintro ⟨_, hk⟩
      exact (contains_true_iff _ _).mp hk
    · intro hk
      exact ⟨hsub k hk, (contains_true_iff _ _).mpr hk⟩
  have hcomm : ((l.map chave).filter (fun k => ks.contains k)).length =
      (l.filter (fun p => ks.contains (chave p))).length := by
    rw [List.filter_map, List.length_map]
    rfl
  have hsplit := (List.filter_append_perm (fun p => ks.contains (chave p)) l).length_eq
  rw [List.length_append] at hsplit
  have hlen1 : (l.filter (fun p => ks.contains (chave p))).length = ks.length := by
    rw [← hcomm]
    exact hperm.length_eq
  rw [← hsplit, hlen1]
  omega

/-- C1 counterexample: a statement record whose description is empty and that
finds no match is dropped from BOTH buckets (concilia.js 524-530 skips
blank-description statement records instead of reporting them), so
`|matches| + |unmatchedStatementSide| = 0` while the statement input has one
record. -/
theorem claim1_particao_cex :
    ((cruzarPagamentos [⟨1, 5, "", none⟩] []).encontrados.length +
      (cruzarPagamentos [⟨1, 5, "", none⟩] []).naoEncontradosNoRelatorio.length = 0) ∧
    ([(⟨1, 5, "", none⟩ : Pagamento)] : List Pagamento).length = 1 :=
  ⟨by decide, rfl⟩

/-- C1 amended: when the two inputs have pairwise distinct dedup keys and
every STATEMENT record has a non-blank description, the matcher's output
partitions the inputs: `|matches| + |unmatched|` equals the corresponding
input size on both sides, no key appears in two matches, and no matched
record also appears in an unmatched list.  (Without the description proviso,
unmatched blank-description statement records are silently dropped, as the
counterexample shows.) -/
theorem claim1_particao (e r : List Pagamento)
    (hE : (e.map chave).Nodup) (hR : (r.map chave).Nodup)
    (hDesc : ∀ p ∈ e, descricaoValida p = true) :
    ((cruzarPagamentos e r).encontrados.length +
      (cruzarPagamentos e r).naoEncontradosNoRelatorio.length = e.length) ∧
    ((cruzarPagamentos e r).encontrados.length +
      (cruzarPagamentos e r).naoEncontradosNoExtrato.length = r.length) ∧
    ((cruzarPagamentos e r).encontrados.map (fun m => chave m.extrato)).Nodup ∧
    ((cruzarPagamentos e r).encontrados.map (fun m => chave m.relatorio)).Nodup ∧
    (∀ m ∈ (cruzarPagamentos e r).encontrados,
      m.relatorio ∉ (cruzarPagamentos e r).naoEncontradosNoExtrato ∧
      m.extrato ∉ (cruzarPagamentos e r).naoEncontradosNoRelatorio) := by
  obtain ⟨hIE, hIR, hnE, hnR⟩ := estadoFinal_inv e r
  have hsubE : ∀ k ∈ (estadoFinal e r).extratoUsados, k ∈ e.map chave := by
    intro k hk
    rw [hIE, List.mem_reverse] at hk
    obtain ⟨c, hc, rfl⟩ := List.mem_map.mp hk
    exact List.mem_map.mpr ⟨c.extrato, (mem_todosMatches (mem_estadoFinal_aplicados hc)).1, rfl⟩
  have hsubR : ∀ k ∈ (estadoFinal e r).relatorioUsados, k ∈ r.map chave := by
    intro k hk
    rw [hIR, List.mem_reverse] at hk
    obtain ⟨c, hc, rfl⟩ := List.mem_map.mp hk
    exact List.mem_map.mpr
      ⟨c.relatorio, (mem_todosMatches (mem_estadoFinal_aplicados hc)).2.1, rfl⟩
  have hndE : (estadoFinal e r).extratoUsados.Nodup := by
    rw [hIE]
    exact List.nodup_reverse.mpr hnE
  have hndR : (estadoFinal e r).relatorioUsados.Nodup := by
    rw [hIR]
    exact List.nodup_reverse.mpr hnR
  have hlenE : (estadoFinal e r).extratoUsados.length =
      (estadoFinal e r).matchesAplicados.length := by
    rw [hIE, List.length_reverse, List.length_map]
  have hlenR : (estadoFinal e r).relatorioUsados.length =
      (estadoFinal e r).matchesAplicados.length := by
    rw [hIR, List.length_reverse, List.length_map]
  have hencLen : (cruzarPagamentos e r).encontrados.length =
      (estadoFinal e r).matchesAplicados.length := by
    unfold cruzarPagamentos
    dsimp only
    rw [List.length_map]
  have hcntE := length_filter_not_contains (estadoFinal e r).extratoUsados e hndE hE hsubE
  have hcntR := length_filter_not_contains (estadoFinal e r).relatorioUsados r hndR hR hsubR
  refine ⟨?_, ?_, ?_, ?_, ?_⟩
  · have hfe : (cruzarPagamentos e r).naoEncontradosNoRelatorio =
        e.filter (fun p => !((estadoFinal e r).extratoUsados.contains (chave p))) := by
      unfold cruzarPagamentos
      dsimp only
      apply List.filter_congr
      intro p hp
      rw [hDesc p hp, Bool.true_and]
    rw [hfe, hencLen]
    omega
  · have hfr : (cruzarPagamentos e r).naoEncontradosNoExtrato =
        r.filter (fun p => !((estadoFinal e r).relatorioUsados.contains (chave p))) := rfl
    rw [hfr, hencLen]
    omega
  · show (((estadoFinal e r).matchesAplicados.map paraEncontrado).map
      (fun m => chave m.extrato)).Nodup
    rw [List.map_map]
    exact hnE
  · show (((estadoFinal e r).matchesAplicados.map paraEncontrado).map
      (fun m => chave m.relatorio)).Nodup
    rw [List.map_map]
    exact hnR
  · intro m hm
    have hm' : m ∈ (estadoFinal e r).matchesAplicados.map paraEncontrado := hm
    rw [List.mem_map] at hm'
    obtain ⟨c, hc, rfl⟩ := hm'
    constructor
    · intro hmem
      have hmem' : c.relatorio ∈ r.filter
          (fun p => !((estadoFinal e r).relatorioUsados.contains (chave p))) := hmem
      rw [List.mem_filter] at hmem'
      have hkey : ((estadoFinal e r).relatorioUsados.contains (chave c.relatorio)) = true :=
        (contains_true_iff _ _).mpr (by
          rw [hIR, List.mem_reverse]
          exact List.mem_map_of_mem chaveR hc)
      rw [hkey] at hmem'
      exact absurd hmem'.2 (by decide)
    · intro hmem
      have hmem' : c.extrato ∈ e.filter
          (fun p => descricaoValida p &&
            !((estadoFinal e r).extratoUsados.contains (chave p))) := hmem
      rw [List.mem_filter] at hmem'
      have hkey : ((estadoFinal e r).extratoUsados.contains (chave c.extrato)) = true :=
        (contains_true_iff _ _).mpr (by
          rw [hIE, List.mem_reverse]
          exact List.mem_map_of_mem chaveE hc)
      have h2 : (!((estadoFinal e r).extratoUsados.contains (chave c.extrato))) = true := by
        have hand := hmem'.2
        simp only [Bool.and_eq_true] at hand
        exact hand.2
      rw [hkey] at h2
      exact absurd h2 (by decide)

/-- C1 witness: a 1-1 run with valid descriptions partitions exactly. -/
theorem claim1_particao_wit :
    ((([(⟨1, 5, "a", none⟩ : Pagamento)] : List Pagamento).map chave).Nodup ∧
     (([(⟨2, 5, "a", none⟩ : Pagamento)] : List Pagamento).map chave).Nodup ∧
     (∀ p ∈ ([(⟨1, 5, "a", none⟩ : Pagamento)] : List Pagamento),
       descricaoValida p = true)) ∧
    ((cruzarPagamentos [⟨1, 5, "a", none⟩] [⟨2, 5, "a", none⟩]).encontrados.length +
      (cruzarPagamentos [⟨1, 5, "a", none⟩]
        [⟨2, 5, "a", none⟩]).naoEncontradosNoRelatorio.length =
      ([(⟨1, 5, "a", none⟩ : Pagamento)] : List Pagamento).length) :=
  ⟨⟨by decide, by decide, by decide⟩,
   (claim1_particao [⟨1, 5, "a", none⟩] [⟨2, 5, "a", none⟩]
     (by decide) (by decide) (by decide)).1⟩

end Concilia
